import Mathlib

/-
  Verification development for the itsylinker static linker.

  The definitions below are a shallow embedding of the linker sources:
    src/gather.rs    section gathering and ELF e_flags merging
    src/copy.rs      section, symbol and relocation copying into the output ELF
    src/manifest.rs  the manifest of memory mapped input files
    src/main.rs and src/context.rs   the driver, in particular group processing
    src/obj.rs       the object file gate used by the older driver path

  Machine integers are modelled as Nat with explicit reduction modulo 2^w
  where the Rust code can wrap.  Process terminating fatal_msg calls are
  modelled as Except.error values carrying the data that the printed
  diagnostic interpolates; the distinct panick constructor models a Rust
  panic (for example Option::unwrap on None), which is a different failure
  mode from fatal_msg.
-/

namespace Itsylinker

/-- Association list lookup, first match wins.  Models HashMap lookups; a
cons to the front of the list models HashMap::insert (overwriting). -/
def alookup {α β : Type} [DecidableEq α] : List (α × β) → α → Option β
  | [], _ => none
  | (k, v) :: rest, key => if k = key then some v else alookup rest key

/-- Wildcard matcher of the wildmatch crate: a star matches any sequence of
characters including the empty one, a question mark matches exactly one
character, every other character matches itself.  The fuel only bounds the
recursion depth so that the function is structurally recursive and kernel
computable: every recursive call strictly decreases the sum of the two list
lengths, so fuel exceeding that sum never runs out and the entry point
below supplies exactly that much. -/
def wildMatchFuel : Nat → List Char → List Char → Bool
  | 0, _, _ => false
  | fuel + 1, pat, s =>
    match pat, s with
    | [], cs => cs.isEmpty
    | '*' :: ps, cs =>
        wildMatchFuel fuel ps cs ||
          (match cs with
           | [] => false
           | _ :: cs2 => wildMatchFuel fuel ('*' :: ps) cs2)
    | '?' :: ps, cs =>
        (match cs with
         | [] => false
         | _ :: cs2 => wildMatchFuel fuel ps cs2)
    | p :: ps, cs =>
        (match cs with
         | [] => false
         | c :: cs2 => p == c && wildMatchFuel fuel ps cs2)

/-- String level entry point, WildMatch::new(pattern).matches(name). -/
def wildMatch (pat s : String) : Bool :=
  wildMatchFuel (pat.length + s.length + 1) pat.data s.data

/- ===== core data model (the object crate views used by the sources) ===== -/

/-- Section kinds as far as the linker distinguishes them.  The sources only
test for Metadata (skipped) and is_bss (uninitialized data). -/
inductive SKind
  | text
  | data
  | readOnlyData
  | uninitializedData
  | metadata
  | note
deriving DecidableEq, Repr

/-- SectionKind::is_bss of the object crate. -/
def SKind.isBss : SKind → Bool
  | .uninitializedData => true
  | _ => false

/-- Symbol kinds; the symbol copy pass skips Null and File. -/
inductive SymKind
  | null
  | file
  | text
  | data
  | label
  | unknown
deriving DecidableEq, Repr

/-- Binary container formats distinguished by manifest.rs add_object. -/
inductive BinFormat
  | elf
  | coff
  | macho
  | wasm
deriving DecidableEq, Repr

/-- Architectures distinguished by manifest.rs add_object.  The tag of the
otherArch constructor stands for the offending architecture code that the
fatal diagnostic prints. -/
inductive Arch
  | riscv64
  | otherArch (code : Nat)
deriving DecidableEq, Repr

/-- object::FileFlags as matched by update_e_flags and update_flags. -/
inductive FileFlags
  | fnone
  | elf (e_flags : Nat)
  | otherFlags
deriving DecidableEq, Repr

/-- Numeric value of e_flags as extracted by the match statements in
gather.rs lines 191 to 203: None reads as zero, Elf reads its payload
and any other variant is fatal (guarded by the callers below). -/
def FileFlags.val : FileFlags → Nat
  | .fnone => 0
  | .elf e => e
  | .otherFlags => 0

/-- Fatal and panic outcomes.  Each fatal constructor carries exactly the
data that the corresponding fatal_msg format string interpolates, so a
claim that a diagnostic mentions some value is the claim that the error
constructor carries that value. -/
inductive LinkErr
  | unrecognizedFile (pseudo : List String)
  | unsupportedFormat (pseudo : List String) (fmt : BinFormat)
  | nonRiscvArch (pseudo : List String) (arch : Arch)
  | objectParse (pseudo : List String) (msg : String)
  | archiveParse (pseudo : List String) (msg : String)
  | comdatUnsupported (id : String) (count : Nat)
  | cantMapSection (id : String) (index : Nat)
  | unsupportedRelocTarget (id : String)
  | unexpectedSymbolSection (id : String)
  | unsupportedSymbolFlags (id : String)
  | sectionIndexNotFound (id : String) (index : Nat)
  | unrecognizedObjFlags
  | unrecognizedElfFlags
  | nonRiscvMachine (src : List String) (machine : Nat)
  | not64Bit (src : List String)
  | panick (msg : String)
  | outOfFuel
deriving DecidableEq, Repr

/-- Relocation targets distinguished in copy.rs relocations. -/
inductive RelocTarget
  | symbol (i : Nat)
  | section (i : Nat)
  | absolute
deriving DecidableEq, Repr

/-- A relocation as read from an input section (object::read::Relocation). -/
structure InReloc where
  size : Nat
  kind : Nat
  encoding : Nat
  addend : Int
  target : RelocTarget
deriving DecidableEq, Repr

/-- An input section of a parsed object, with the attributes the linker
reads.  The relocs list pairs each relocation with its offset, as the
relocations iterator of the object crate does. -/
structure InSection where
  index : Nat
  name : String
  kind : SKind
  address : Nat
  size : Nat
  align : Nat
  data : List Nat
  segment : String
  flags : Nat
  relocs : List (Nat × InReloc)
deriving DecidableEq, Repr

/-- Symbol section attribution as read from an input symbol. -/
inductive SymSec
  | secIdx (i : Nat)
  | nosec
  | undefined
  | absolute
  | common
  | otherSec
deriving DecidableEq, Repr

/-- Symbol flags as matched in copy.rs lines 175 to 180. -/
inductive SymFlagsIn
  | fnone
  | elf (st_info st_other : Nat)
  | otherF
deriving DecidableEq, Repr

/-- An input symbol of a parsed object. -/
structure InSymbol where
  index : Nat
  kind : SymKind
  ssec : SymSec
  address : Nat
  size : Nat
  name : String
  scope : Nat
  weak : Bool
  flags : SymFlagsIn
deriving DecidableEq, Repr

/-- A parsed input object (the object::File view re-derived per pass). -/
structure Obj where
  sections : List InSection
  symbols : List InSymbol
  fflags : FileFlags
  comdatCount : Nat
deriving DecidableEq, Repr

/-- parsed.section_by_index: the section carrying the given index. -/
def Obj.sectionByIndex (o : Obj) (i : Nat) : Option InSection :=
  o.sections.find? (fun s => s.index == i)

/-- The per section filter shared by gather.rs line 98 and copy.rs line 265:
the wildcard pattern matches the section name and the kind is not
Metadata. -/
def sectionMatches (pat : String) (sec : InSection) : Bool :=
  wildMatch pat sec.name && sec.kind != SKind.metadata

/- ===== e_flags merge: gather.rs lines 175 to 219 and copy.rs 309 to 353 ===== -/

/-- Bit 0: compressed instructions in use. -/
def EF_RVC : Nat := 0
/-- Bits 1 to 2 hold the float ABI level. -/
def EF_FLOAT_ABI_MASK_SHIFTED : Nat := 6
/-- Bit 3: embedded ABI; bit 4: RVTSO.  Usage mask (1<<0) ||| (1<<3) ||| (1<<4). -/
def EF_USAGE_FLAGS : Nat := 25
/-- Complement of the float ABI mask within u32, the Rust !EF_FLOAT_ABI_MASK_SHIFTED. -/
def EF_FLOAT_ABI_NOTMASK : Nat := 4294967289

/-- Numeric core of update_e_flags, gather.rs lines 205 to 218: OR the usage
bits of the object into the accumulator, then replace the float ABI field
iff the object field compares numerically greater. -/
def updateEFlagsRaw (current obj : Nat) : Nat :=
  let elf_flags := current ||| (obj &&& EF_USAGE_FLAGS)
  let obj_float_abi_level := obj &&& EF_FLOAT_ABI_MASK_SHIFTED
  let elf_float_abi_level := elf_flags &&& EF_FLOAT_ABI_MASK_SHIFTED
  if obj_float_abi_level > elf_float_abi_level then
    obj_float_abi_level ||| (elf_flags &&& EF_FLOAT_ABI_NOTMASK)
  else
    elf_flags

/-- update_e_flags of gather.rs lines 189 to 219: unwraps both FileFlags
values (fatal on unrecognized variants, matching the object first as the
source does) and applies the numeric merge. -/
def update_e_flags (current obj : FileFlags) : Except LinkErr FileFlags :=
  match obj with
  | .otherFlags => .error .unrecognizedObjFlags
  | _ =>
    match current with
    | .otherFlags => .error .unrecognizedElfFlags
    | _ => .ok (.elf (updateEFlagsRaw current.val obj.val))

/-- update_flags of copy.rs lines 323 to 353; its body is the same merge
applied to the flags of the output ELF under construction. -/
def update_flags (elfFlags objFlags : FileFlags) : Except LinkErr FileFlags :=
  update_e_flags elfFlags objFlags

/-- Folding the merge over the flags of a list of contributing objects,
starting from FileFlags::None exactly as gather.rs line 57 does. -/
def mergeAll (fs : List FileFlags) : Except LinkErr FileFlags :=
  fs.foldlM update_e_flags .fnone

/- ===== gather pass: gather.rs Collection::new, lines 49 to 138 ===== -/

/-- Segment classes of gather.rs. -/
inductive SectionSegment
  | loadableRead
  | loadableReadWrite
  | loadableReadExec
deriving DecidableEq, Repr

/-- STANDARD_SECTIONS of gather.rs lines 15 to 21. -/
def STANDARD_SECTIONS : List (String × SectionSegment) :=
  [("text", .loadableReadExec),
   ("rodata", .loadableRead),
   ("data", .loadableReadWrite),
   ("bss", .loadableReadWrite)]

/-- ManifestSection of gather.rs lines 33 to 39: the identity under which a
kept section is stored in the IndexSet.  Note that the parent standard
section index is part of the identity. -/
structure GSection where
  identifier : String
  index : Nat
  parent : Nat
deriving DecidableEq, Repr

/-- Accumulated gather state: the insertion ordered set of kept sections
(IndexSet modelled as a duplicate free list in insertion order), the
accumulated e_flags, and an instrumentation counter recording how many
times the flag merge fired (the counter shadows the computation and has no
effect on it). -/
structure GatherState where
  sections : List GSection
  eflags : FileFlags
  merges : Nat
deriving DecidableEq, Repr

/-- Per section body of the gather loop, gather.rs lines 86 to 117.  The
Bool component of the state is the per object flags_updated local.  An
IndexSet insert that finds the element already present returns false and
the flag merge is not re-fired. -/
def gatherStep (pat : String) (id : String) (objFlags : FileFlags) (stdIdx : Nat)
    (p : GatherState × Bool) (sec : InSection) : Except LinkErr (GatherState × Bool) :=
  if sectionMatches pat sec then
    let ms : GSection := ⟨id, sec.index, stdIdx⟩
    if ms ∈ p.1.sections then
      .ok p
    else
      let st := { p.1 with sections := p.1.sections ++ [ms] }
      if p.2 then
        .ok (st, true)
      else
        match update_e_flags st.eflags objFlags with
        | .error e => .error e
        | .ok f => .ok ({ st with eflags := f, merges := st.merges + 1 }, true)
  else
    .ok p

/-- Per object body of the gather loop: fatal on comdats, then scan the
sections with a fresh flags_updated local. -/
def gatherObj (pat : String) (stdIdx : Nat) (st : GatherState)
    (io : String × Obj) : Except LinkErr GatherState :=
  if io.2.comdatCount > 0 then
    .error (.comdatUnsupported io.1 io.2.comdatCount)
  else do
    let r ← io.2.sections.foldlM (gatherStep pat io.1 io.2.fflags stdIdx) (st, false)
    pure r.1

/-- Collection::new of gather.rs lines 52 to 138.  The manifest argument is
the iteration order of manifest.raw_objects during this pass; the config
maps standard section names to their include pattern lists. -/
def gatherNew (config : List (String × List String)) (manifest : List (String × Obj)) :
    Except LinkErr GatherState :=
  (List.range STANDARD_SECTIONS.length).foldlM
    (fun st stdIdx =>
      match STANDARD_SECTIONS.get? stdIdx with
      | none => .ok st
      | some entry =>
        match alookup config entry.1 with
        | none => .ok st
        | some pats =>
          pats.foldlM (fun st pat => manifest.foldlM (gatherObj pat stdIdx) st) st)
    ⟨[], .fnone, 0⟩

/- ===== section copy: copy.rs sections, lines 214 to 307 ===== -/

/-- Body of an output section: either reserved BSS bytes or copied data,
mirroring the append_bss versus set_data branch of copy.rs lines 286 to 290. -/
inductive SectionBody
  | bss (size : Nat) (align : Nat)
  | bytes (data : List Nat) (align : Nat)
deriving DecidableEq, Repr

/-- The content record of an output section created by elf.add_section plus
the subsequent set_data or append_bss and flags copy.  Output section ids
are positions in the list of records, in creation order. -/
structure OutSection where
  segment : String
  name : String
  kind : SKind
  body : SectionBody
  flags : Nat
deriving DecidableEq, Repr

/-- The record built from an input section by copy.rs lines 283 to 291. -/
def mkOutSection (sec : InSection) : OutSection :=
  { segment := sec.segment
    name := sec.name
    kind := sec.kind
    body := if sec.kind.isBss then .bss sec.size sec.align else .bytes sec.data sec.align
    flags := sec.flags }

/-- State of the section copy pass: output sections in creation order, the
section map from (identifier, input index) to output section id with the
most recent insertion first (HashMap::insert overwrites), the flags of the
ELF under construction, and an instrumentation counter of update_flags
invocations (no effect on the computation). -/
structure CopyState where
  outs : List OutSection
  secMap : List ((String × Nat) × Nat)
  eflags : FileFlags
  merges : Nat
deriving DecidableEq, Repr

/-- One matched section: add_section assigns the next output section id,
the data or bss reservation and flags are copied, and the section map entry
is inserted, copy.rs lines 283 to 292. -/
def copySection (id : String) (st : CopyState) (sec : InSection) : CopyState :=
  { st with
      outs := st.outs ++ [mkOutSection sec]
      secMap := ((id, sec.index), st.outs.length) :: st.secMap }

/-- Per section body of the copy loop, copy.rs lines 254 to 300; the Bool is
the per (pattern, object) flags_updated local.  Note there is no membership
test: every match creates a new output section. -/
def copyObjStep (pat : String) (id : String) (objFlags : FileFlags)
    (p : CopyState × Bool) (sec : InSection) : Except LinkErr (CopyState × Bool) :=
  if sectionMatches pat sec then
    let st := copySection id p.1 sec
    if p.2 then
      .ok (st, true)
    else
      match update_flags st.eflags objFlags with
      | .error e => .error e
      | .ok f => .ok ({ st with eflags := f, merges := st.merges + 1 }, true)
  else
    .ok p

/-- Per object body: fatal on comdats, then scan sections with a fresh
flags_updated local. -/
def copyObjSections (pat : String) (st : CopyState) (io : String × Obj) :
    Except LinkErr CopyState :=
  if io.2.comdatCount > 0 then
    .error (.comdatUnsupported io.1 io.2.comdatCount)
  else do
    let r ← io.2.sections.foldlM (copyObjStep pat io.1 io.2.fflags) (st, false)
    pure r.1

/-- Modelled from the spec: the SECTIONS constant that copy.rs imports from
config.rs is not present in the src tree (the config.rs there is an older
generation without it); per spec section 4.3 the standard sections are the
fixed list text, rodata, data, bss. -/
def SECTIONS : List String := ["text", "rodata", "data", "bss"]

/-- copy::sections of copy.rs lines 214 to 307.  The manifest argument is
the iteration order of manifest.raw_objects during this pass; output.rs
line 34 initializes the ELF flags to FileFlags::None. -/
def sectionsPass (config : List (String × List String)) (manifest : List (String × Obj)) :
    Except LinkErr CopyState :=
  SECTIONS.foldlM
    (fun st name =>
      match alookup config name with
      | none => .ok st
      | some pats => pats.foldlM (fun st pat => manifest.foldlM (copyObjSections pat) st) st)
    ⟨[], [], .fnone, 0⟩

/- ===== symbol copy: copy.rs symbols, lines 119 to 209 ===== -/

/-- Wrapping u64 subtraction: the release mode meaning of the unguarded
symbol.address() - section_address at copy.rs line 158. -/
def wrapSub (a b : Nat) : Nat :=
  (a + (2 ^ 64 - b % 2 ^ 64)) % 2 ^ 64

/-- Checked u64 subtraction: the debug mode meaning of the same expression,
where underflow panics. -/
def checkedSub (a b : Nat) : Option Nat :=
  if b ≤ a then some (a - b) else none

/-- Output symbol section attribution (object::write::SymbolSection). -/
inductive OutSymSec
  | sec (sid : Nat)
  | nosec
  | undefined
  | absolute
  | common
deriving DecidableEq, Repr

/-- Output symbol flags. -/
inductive SymFlagsOut
  | fnone
  | elf (st_info st_other : Nat)
deriving DecidableEq, Repr

/-- An output symbol record as built by copy.rs lines 189 to 199. -/
structure OutSymbol where
  name : String
  value : Nat
  size : Nat
  kind : SymKind
  scope : Nat
  weak : Bool
  ssection : OutSymSec
  flags : SymFlagsOut
deriving DecidableEq, Repr

/-- Section attribution and rebased value of one symbol, copy.rs lines 139
to 173.  A none result is the continue at line 163: the owning section was
not kept, so the symbol is skipped. -/
def symbolAttribution (secMap : List ((String × Nat) × Nat)) (id : String) (obj : Obj)
    (s : InSymbol) : Except LinkErr (Option (OutSymSec × Nat)) :=
  match s.ssec with
  | .secIdx i =>
    match alookup secMap (id, i) with
    | some sid =>
      match obj.sectionByIndex i with
      | some sec => .ok (some (.sec sid, wrapSub s.address sec.address))
      | none => .error (.sectionIndexNotFound id i)
    | none => .ok none
  | .nosec => .ok (some (.nosec, s.address))
  | .undefined => .ok (some (.undefined, s.address))
  | .absolute => .ok (some (.absolute, s.address))
  | .common => .ok (some (.common, s.address))
  | .otherSec => .error (.unexpectedSymbolSection id)

/-- Symbol flag conversion, copy.rs lines 175 to 180. -/
def symbolFlagsOut (id : String) : SymFlagsIn → Except LinkErr SymFlagsOut
  | .fnone => .ok .fnone
  | .elf a b => .ok (.elf a b)
  | .otherF => .error (.unsupportedSymbolFlags id)

/-- Per symbol body of the symbol copy pass, copy.rs lines 130 to 203.  A
none result means no output symbol is created for this input symbol. -/
def processSymbol (secMap : List ((String × Nat) × Nat)) (id : String) (obj : Obj)
    (s : InSymbol) : Except LinkErr (Option OutSymbol) :=
  match s.kind with
  | .null => .ok none
  | .file => .ok none
  | _ => do
    match ← symbolAttribution secMap id obj s with
    | none => pure none
    | some att => do
      let fl ← symbolFlagsOut id s.flags
      pure (some
        { name := s.name
          value := att.2
          size := s.size
          kind := s.kind
          scope := s.scope
          weak := s.weak
          ssection := att.1
          flags := fl })

/-- copy::symbols of copy.rs lines 121 to 209: fold over the manifest in
iteration order, appending created symbols (ids are positions) and
recording the symbol map. -/
def symbolsPass (secMap : List ((String × Nat) × Nat)) (manifest : List (String × Obj)) :
    Except LinkErr (List OutSymbol × List ((String × Nat) × Nat)) :=
  manifest.foldlM
    (fun st io =>
      io.2.symbols.foldlM
        (fun (st : List OutSymbol × List ((String × Nat) × Nat)) s => do
          match ← processSymbol secMap io.1 io.2 s with
          | none => pure st
          | some out => pure (st.1 ++ [out], ((io.1, s.index), st.1.length) :: st.2))
        st)
    ([], [])

/- ===== relocation copy: copy.rs relocations, lines 37 to 117 ===== -/

/-- The symbol referenced by an output relocation: either a mapped output
symbol id or the canonical section symbol of an output section delivered by
elf.section_symbol. -/
inductive OutSymRef
  | sym (sid : Nat)
  | sectionSym (osid : Nat)
deriving DecidableEq, Repr

/-- An output relocation record, copy.rs lines 99 to 106, remembering which
output section it is attached to (the add_relocation argument). -/
structure OutReloc where
  offset : Nat
  size : Nat
  kind : Nat
  encoding : Nat
  symbol : OutSymRef
  addend : Int
  attachedTo : Nat
deriving DecidableEq, Repr

/-- Per relocation body of the relocation pass, copy.rs lines 62 to 112.
A none result is the continue at line 77: the target symbol was left out,
so the relocation is silently dropped. -/
def processRelocation (symMap secMap : List ((String × Nat) × Nat)) (id : String)
    (outSec : Nat) (offset : Nat) (r : InReloc) : Except LinkErr (Option OutReloc) :=
  match r.target with
  | .symbol i =>
    match alookup symMap (id, i) with
    | some s =>
      .ok (some
        { offset := offset, size := r.size, kind := r.kind, encoding := r.encoding
          symbol := .sym s, addend := r.addend, attachedTo := outSec })
    | none => .ok none
  | .section i =>
    match alookup secMap (id, i) with
    | some osid =>
      .ok (some
        { offset := offset, size := r.size, kind := r.kind, encoding := r.encoding
          symbol := .sectionSym osid, addend := r.addend, attachedTo := outSec })
    | none => .error (.cantMapSection id i)
  | .absolute => .error (.unsupportedRelocTarget id)

/-- Per section body of the relocation pass, copy.rs lines 43 to 115:
metadata sections are skipped, sections that were not kept are skipped
with their relocations, and otherwise each relocation is retargeted and
attached to the output section. -/
def relocSection (symMap secMap : List ((String × Nat) × Nat)) (id : String)
    (sec : InSection) : Except LinkErr (List OutReloc) :=
  if sec.kind = SKind.metadata then
    .ok []
  else
    match alookup secMap (id, sec.index) with
    | none => .ok []
    | some outSec =>
      sec.relocs.foldlM
        (fun acc or => do
          match ← processRelocation symMap secMap id outSec or.1 or.2 with
          | some o => pure (acc ++ [o])
          | none => pure acc)
        []

/-- copy::relocations of copy.rs lines 37 to 117. -/
def relocationsPass (symMap secMap : List ((String × Nat) × Nat))
    (manifest : List (String × Obj)) : Except LinkErr (List OutReloc) :=
  manifest.foldlM
    (fun acc io =>
      io.2.sections.foldlM
        (fun acc sec => do
          let rs ← relocSection symMap secMap io.1 sec
          pure (acc ++ rs))
        acc)
    []

/- ===== manifest builder: manifest.rs lines 17 to 166 ===== -/

/-- A memory mapping request as produced by map_file, manifest.rs lines 121
to 149: the real backing file, and the optional offset and length of the
mapped sub range (none means the map_file defaults of offset zero and the
whole file). -/
structure Mapping where
  file : List String
  offset : Option Nat
  length : Option Nat
deriving DecidableEq, Repr

/-- The manifest: file identifiers (pseudo paths, as component lists) to
mappings.  HashMap::insert semantics: an insert for an existing key
overwrites. -/
abbrev ManifestM := List (List String × Mapping)

/-- HashMap::insert on the manifest model. -/
def mInsert (m : ManifestM) (key : List String) (v : Mapping) : ManifestM :=
  if (m.map Prod.fst).contains key then
    m.map (fun kv => if kv.1 = key then (key, v) else kv)
  else
    m ++ [(key, v)]

/-- Header data of a parsed object as read by add_object. -/
structure ObjHeader where
  format : BinFormat
  arch : Arch
deriving DecidableEq, Repr

/-- An archive member as delivered by ArchiveFile::parse: its name and its
member.file_range() pair (offset, length). -/
structure ArcMember where
  name : String
  offset : Nat
  length : Nat
deriving DecidableEq, Repr

/-- The byte level parsers of the object crate, abstracted: what parsing a
given mapping yields.  Concrete environments are supplied in theorems. -/
structure Env where
  parseObject : Mapping → Except String ObjHeader
  parseArchive : Mapping → Except String (List ArcMember)

/-- Characters after the last dot of the list, none when no dot occurs. -/
def afterLastDot : List Char → Option (List Char)
  | [] => none
  | c :: rest =>
    match afterLastDot rest with
    | some e => some e
    | none => if c = '.' then some rest else none

/-- Rust Path::extension on a single file name component: none when the
name has no embedded dot or when it begins with a dot and has no other dot,
otherwise the portion after the final dot. -/
def rustExtension (name : String) : Option String :=
  match name.data with
  | [] => none
  | c :: rest =>
    if c = '.' then (afterLastDot rest).map String.mk
    else (afterLastDot (c :: rest)).map String.mk

/-- Extension of the pseudo path: extension of its last component. -/
def pathExtension (p : List String) : Option String :=
  match p.getLast? with
  | none => none
  | some n => rustExtension n

/-- The outcome of the extension dispatch of add_file, manifest.rs line 64:
psuedo_path.extension().unwrap() panics when the extension is absent, and
otherwise the match selects one of the four arms. -/
inductive ExtDispatch
  | object
  | archive
  | skipMeta
  | unrecognized
  | unwrapPanic
deriving DecidableEq, Repr

/-- The dispatch table of manifest.rs lines 64 to 70. -/
def addDispatch : Option String → ExtDispatch
  | none => .unwrapPanic
  | some "o" => .object
  | some "rlib" => .archive
  | some "rmeta" => .skipMeta
  | some _ => .unrecognized

/-- add_object of manifest.rs lines 74 to 88: parse the mapping (fatal on
parse failure), fatal unless the format is ELF, fatal unless the
architecture is 64 bit RISC-V, else insert under the pseudo path. -/
def add_object (env : Env) (m : ManifestM) (pseudo : List String) (mapping : Mapping) :
    Except LinkErr ManifestM :=
  match env.parseObject mapping with
  | .error e => .error (.objectParse pseudo e)
  | .ok hdr =>
    if hdr.format ≠ BinFormat.elf then
      .error (.unsupportedFormat pseudo hdr.format)
    else if hdr.arch ≠ Arch.riscv64 then
      .error (.nonRiscvArch pseudo hdr.arch)
    else
      .ok (mInsert m pseudo mapping)

/-- add_file of manifest.rs lines 62 to 71 together with expand_archive of
lines 91 to 119.  The fuel bounds archive nesting depth only (each
recursive call descends into an archive member); real inputs are finite so
any fuel at least the nesting depth reproduces the source behavior.  For
each archive member, the sub mapping covers the (offset, length) range of
the backing file, and the member name is appended to the pseudo path
before redispatching. -/
def add_file (env : Env) : Nat → ManifestM → List String → List String → Mapping →
    Except LinkErr ManifestM
  | 0, _, _, _, _ => .error .outOfFuel
  | Nat.succ fuel, m, filename, pseudo, mapping =>
    match addDispatch (pathExtension pseudo) with
    | .unwrapPanic => .error (.panick "called Option unwrap on a None value")
    | .object => add_object env m pseudo mapping
    | .skipMeta => .ok m
    | .unrecognized => .error (.unrecognizedFile pseudo)
    | .archive =>
      match env.parseArchive mapping with
      | .error e => .error (.archiveParse pseudo e)
      | .ok members =>
        members.foldlM
          (fun acc mem =>
            add_file env fuel acc filename (pseudo ++ [mem.name])
              ⟨filename, some mem.offset, some mem.length⟩)
          m

/-- Manifest::add of manifest.rs lines 36 to 55: map the whole file and
dispatch with the pseudo path equal to the filename. -/
def manifestAdd (env : Env) (fuel : Nat) (m : ManifestM) (filename : List String) :
    Except LinkErr ManifestM :=
  add_file env fuel m filename filename ⟨filename, none, none⟩

/- ===== obj.rs gate, lines 28 to 46 ===== -/

/-- RISC-V ELF machine type. -/
def EM_RISCV : Nat := 243

/-- Goblin header data read by obj.rs link_slice. -/
structure GoblinHeader where
  e_machine : Nat
  is_64 : Bool
deriving DecidableEq, Repr

/-- The acceptance gate of obj.rs lines 40 to 46: fatal (mentioning the
machine code) unless the machine type is EM_RISCV, fatal unless the object
is 64 bit. -/
def linkSliceGate (src : List String) (hdr : GoblinHeader) : Except LinkErr Unit :=
  if hdr.e_machine ≠ EM_RISCV then
    .error (.nonRiscvMachine src hdr.e_machine)
  else if hdr.is_64 ≠ true then
    .error (.not64Bit src)
  else
    .ok ()

/- ===== group processing: main.rs 101 to 122, context.rs 140 to 160 ===== -/

/-- The global symbol table kept by generate.rs add_global_symbol is keyed
by symbol name; insert returns true iff the name was new.  A group member
is abstracted to the list of import symbol names its object contributes
(obj.rs lines 62 to 78).  linkFile returns the updated table and the
number of new names, the return value of process_file. -/
def linkFile (table : List String) (syms : List String) : List String × Nat :=
  syms.foldl
    (fun p n => if n ∈ p.1 then p else (n :: p.1, p.2 + 1))
    (table, 0)

/-- One pass of the process_group loop body: link every member once,
summing the new reference counts. -/
def passOnce (table : List String) (members : List (List String)) : List String × Nat :=
  members.foldl
    (fun p m =>
      let r := linkFile p.1 m
      (r.1, p.2 + r.2))
    (table, 0)

/-- process_group of main.rs lines 101 to 122 (same loop in context.rs
lines 140 to 160): repeat passes over the members until a pass creates no
new unresolved references.  The result pairs the final table with the
number of passes executed, so the number of times each member was linked.
Fuel bounds the loop; the theorems below show fuel two always suffices. -/
def groupLoop : Nat → List String → List (List String) → Option (List String × Nat)
  | 0, _, _ => none
  | Nat.succ fuel, table, members =>
    let r := passOnce table members
    if r.2 = 0 then
      some (r.1, 1)
    else
      match groupLoop fuel r.1 members with
      | some (t, k) => some (t, k + 1)
      | none => none

/- ===== analysis definitions used by the theorems ===== -/

/-- Left side of the merge step with the accumulator in bits 0 to 4 and the
object contribution already masked: this is the body of updateEFlagsRaw. -/
def mergeCoreL (a uo fo : Nat) : Nat :=
  if fo > (a ||| uo) &&& 6 then fo ||| ((a ||| uo) &&& 4294967289) else a ||| uo

/-- Right side of the merge step: usage OR and float maximum. -/
def mergeCoreR (a uo fo : Nat) : Nat :=
  ((a &&& 25) ||| uo) ||| max (a &&& 6) fo

/-- The output section records contributed by one object under one pattern,
in input section index order. -/
def sectionOutsFor (pat : String) (io : String × Obj) : List OutSection :=
  io.2.sections.flatMap (fun s => if sectionMatches pat s then [mkOutSection s] else [])

/-- The output section records contributed by one pattern over a manifest
iteration order. -/
def patternOuts (pat : String) (manifest : List (String × Obj)) : List OutSection :=
  manifest.flatMap (sectionOutsFor pat)

/-- All output section records of a section copy run, in creation order. -/
def configOuts (config : List (String × List String)) (manifest : List (String × Obj)) :
    List OutSection :=
  SECTIONS.flatMap
    (fun name =>
      match alookup config name with
      | none => []
      | some pats => pats.flatMap (fun pat => patternOuts pat manifest))

/-- Output section list of a section copy result, empty on error. -/
def outsOf : Except LinkErr CopyState → List OutSection
  | .ok st => st.outs
  | .error _ => []

/- concrete inputs used by counterexamples and witnesses -/

/-- A small text section. -/
def secText : InSection :=
  { index := 0, name := ".text", kind := .text, address := 0, size := 4, align := 4
    data := [1, 2, 3, 4], segment := "", flags := 0, relocs := [] }

/-- A second small text section with different contents. -/
def secTextB : InSection :=
  { index := 0, name := ".text", kind := .text, address := 0, size := 1, align := 4
    data := [9], segment := "", flags := 0, relocs := [] }

/-- Object holding secText. -/
def objA : Obj := { sections := [secText], symbols := [], fflags := .elf 1, comdatCount := 0 }

/-- Object holding secTextB. -/
def objB : Obj := { sections := [secTextB], symbols := [], fflags := .elf 0, comdatCount := 0 }

/-- Simple config keeping .text sections in the text bucket. -/
def cfgT : List (String × List String) := [("text", [".text*"])]

/-- Config whose text bucket lists two patterns both matching .text. -/
def cfgDup : List (String × List String) := [("text", [".text*", ".t*"])]

/-- Config whose text and data buckets both match .text. -/
def cfgCross : List (String × List String) := [("text", [".te*"]), ("data", [".te*"])]

/-- A section whose address is above the address of a symbol inside it,
triggering the unguarded subtraction. -/
def secHigh : InSection :=
  { index := 0, name := ".data", kind := .data, address := 1, size := 8, align := 8
    data := [0, 0, 0, 0, 0, 0, 0, 0], segment := "", flags := 0, relocs := [] }

/-- A symbol attributed to secHigh with address below the section address. -/
def symLow : InSymbol :=
  { index := 0, kind := .data, ssec := .secIdx 0, address := 0, size := 0
    name := "under", scope := 0, weak := false, flags := .fnone }

/-- Object holding secHigh and symLow. -/
def objU : Obj :=
  { sections := [secHigh], symbols := [symLow], fflags := .elf 0, comdatCount := 0 }

/-- A text section at address 2 used by the symbol rebase witness. -/
def secW : InSection :=
  { index := 0, name := ".text", kind := .text, address := 2, size := 8, align := 4
    data := [0, 0, 0, 0, 0, 0, 0, 0], segment := "", flags := 0, relocs := [] }

/-- A symbol at address 5 inside secW. -/
def symW : InSymbol :=
  { index := 0, kind := .text, ssec := .secIdx 0, address := 5, size := 1
    name := "w", scope := 0, weak := false, flags := .fnone }

/-- Object holding secW and symW. -/
def objW : Obj :=
  { sections := [secW], symbols := [symW], fflags := .elf 0, comdatCount := 0 }

/-- Environment whose every mapping parses as an RV64 ELF object. -/
def envE : Env :=
  { parseObject := fun _ => .ok ⟨.elf, .riscv64⟩
    parseArchive := fun _ => .error "not an archive" }

/-- Environment whose every mapping parses as a COFF object. -/
def envBadFmt : Env :=
  { parseObject := fun _ => .ok ⟨.coff, .riscv64⟩
    parseArchive := fun _ => .error "not an archive" }

/-- Environment whose every mapping parses as an ELF object of a foreign
architecture with code 62. -/
def envBadArch : Env :=
  { parseObject := fun _ => .ok ⟨.elf, .otherArch 62⟩
    parseArchive := fun _ => .error "not an archive" }

/-- A concrete parser environment describing an archive lib.rlib whose only
member inner.rlib (bytes 8 to 108 of the backing file) is itself an
archive whose only member c.o (bytes 16 to 66 of the backing file) parses
as an RV64 ELF object. -/
def envNested : Env :=
  { parseObject := fun m =>
      if m = ⟨["lib.rlib"], some 16, some 50⟩ then .ok ⟨.elf, .riscv64⟩
      else .error "not an object"
    parseArchive := fun m =>
      if m = ⟨["lib.rlib"], none, none⟩ then .ok [⟨"inner.rlib", 8, 100⟩]
      else if m = ⟨["lib.rlib"], some 8, some 100⟩ then .ok [⟨"c.o", 16, 50⟩]
      else .error "not an archive" }

/- ===== helper lemmas ===== -/

theorem exceptBindOk {α β : Type} {ε : Type} (a : α) (f : α → Except ε β) :
    (Except.ok a >>= f) = f a := rfl

theorem exceptBindErr {α β : Type} {ε : Type} (e : ε) (f : α → Except ε β) :
    ((Except.error e : Except ε α) >>= f) = Except.error e := rfl

/- ===== lemmas on the e_flags merge ===== -/

theorem mergeCoreBounded :
    ∀ a, a < 32 → ∀ uo, uo < 26 → ∀ fo, fo < 7 →
      mergeCoreL (a &&& 31) (uo &&& 25) (fo &&& 6) =
        mergeCoreR (a &&& 31) (uo &&& 25) (fo &&& 6) := by
  decide

theorem orLt32 :
    ∀ u, u < 26 → ∀ f, f < 7 → u &&& 25 = u → f &&& 6 = f → (u ||| f) < 32 := by
  decide

theorem orKeeps31 :
    ∀ u, u < 26 → ∀ f, f < 7 → u &&& 25 = u → f &&& 6 = f →
      (u ||| f) &&& 31 = u ||| f := by
  decide

theorem orSplit25 :
    ∀ u, u < 26 → ∀ f, f < 7 → u &&& 25 = u → f &&& 6 = f →
      (u ||| f) &&& 25 = u := by
  decide

theorem orSplit6 :
    ∀ u, u < 26 → ∀ f, f < 7 → u &&& 25 = u → f &&& 6 = f →
      (u ||| f) &&& 6 = f := by
  decide

theorem orKeeps25 :
    ∀ u, u < 26 → ∀ v, v < 26 → u &&& 25 = u → v &&& 25 = v →
      (u ||| v) &&& 25 = u ||| v := by
  decide

theorem and25_self (o : Nat) : (o &&& 25) &&& 25 = o &&& 25 := by
  rw [Nat.land_assoc]; norm_num

theorem and6_self (o : Nat) : (o &&& 6) &&& 6 = o &&& 6 := by
  rw [Nat.land_assoc]; norm_num

theorem le_of_and25 {u : Nat} (h : u &&& 25 = u) : u < 26 :=
  lt_of_le_of_lt (h ▸ Nat.and_le_right) (by omega)

theorem le_of_and6 {f : Nat} (h : f &&& 6 = f) : f < 7 :=
  lt_of_le_of_lt (h ▸ Nat.and_le_right) (by omega)

theorem updateEFlagsRawStep (o u f : Nat) (hu : u &&& 25 = u) (hf : f &&& 6 = f) :
    updateEFlagsRaw (u ||| f) o = (u ||| (o &&& 25)) ||| max f (o &&& 6) := by
  have huo : (o &&& 25) &&& 25 = o &&& 25 := and25_self o
  have hfo : (o &&& 6) &&& 6 = o &&& 6 := and6_self o
  have hub := le_of_and25 hu
  have hfb := le_of_and6 hf
  have h := mergeCoreBounded (u ||| f) (orLt32 u hub f hfb hu hf)
    (o &&& 25) (le_of_and25 huo) (o &&& 6) (le_of_and6 hfo)
  rw [orKeeps31 u hub f hfb hu hf, huo, hfo, mergeCoreR,
    orSplit25 u hub f hfb hu hf, orSplit6 u hub f hfb hu hf] at h
  simpa [updateEFlagsRaw, mergeCoreL, EF_USAGE_FLAGS, EF_FLOAT_ABI_MASK_SHIFTED,
    EF_FLOAT_ABI_NOTMASK] using h

theorem maxKeeps6 {f g : Nat} (hf : f &&& 6 = f) (hg : g &&& 6 = g) :
    max f g &&& 6 = max f g := by
  rcases max_choice f g with h | h <;> rw [h] <;> assumption

theorem foldlRawNormal (es : List Nat) :
    ∀ u f, u &&& 25 = u → f &&& 6 = f →
      es.foldl updateEFlagsRaw (u ||| f) =
        (es.foldl (fun a o => a ||| (o &&& 25)) u) |||
          (es.foldl (fun a o => max a (o &&& 6)) f) := by
  induction es with
  | nil => intro u f _ _; rfl
  | cons o rest ih =>
    intro u f hu hf
    have step := updateEFlagsRawStep o u f hu hf
    have hu2 : (u ||| (o &&& 25)) &&& 25 = u ||| (o &&& 25) :=
      orKeeps25 u (le_of_and25 hu) (o &&& 25) (le_of_and25 (and25_self o)) hu (and25_self o)
    have hf2 : max f (o &&& 6) &&& 6 = max f (o &&& 6) := maxKeeps6 hf (and6_self o)
    simp only [List.foldl_cons, step]
    exact ih (u ||| (o &&& 25)) (max f (o &&& 6)) hu2 hf2

theorem usageInv (es : List Nat) :
    ∀ u, u &&& 25 = u →
      (es.foldl (fun a o => a ||| (o &&& 25)) u) &&& 25 =
        es.foldl (fun a o => a ||| (o &&& 25)) u := by
  induction es with
  | nil => intro u hu; exact hu
  | cons o rest ih =>
    intro u hu
    simp only [List.foldl_cons]
    exact ih _ (orKeeps25 u (le_of_and25 hu) (o &&& 25)
      (le_of_and25 (and25_self o)) hu (and25_self o))

theorem floatInv (es : List Nat) :
    ∀ f, f &&& 6 = f →
      (es.foldl (fun a o => max a (o &&& 6)) f) &&& 6 =
        es.foldl (fun a o => max a (o &&& 6)) f := by
  induction es with
  | nil => intro f hf; exact hf
  | cons o rest ih =>
    intro f hf
    simp only [List.foldl_cons]
    exact ih _ (maxKeeps6 hf (and6_self o))

theorem usageTestBit (b : Nat) (hb : (25 : Nat).testBit b = true) (es : List Nat) :
    ∀ u, (es.foldl (fun a o => a ||| (o &&& 25)) u).testBit b =
      (u.testBit b || es.any (fun o => o.testBit b)) := by
  induction es with
  | nil => intro u; simp
  | cons o rest ih =>
    intro u
    simp only [List.foldl_cons, List.any_cons, ih, Nat.testBit_or, Nat.testBit_and, hb]
    simp [Bool.or_assoc]

theorem mergedNormal (es : List Nat) :
    es.foldl updateEFlagsRaw 0 =
      (es.foldl (fun a o => a ||| (o &&& 25)) 0) |||
        (es.foldl (fun a o => max a (o &&& 6)) 0) := by
  have h := foldlRawNormal es 0 0 (by decide) (by decide)
  simpa using h

theorem mergeAllElf (es : List Nat) :
    ∀ x, (es.map FileFlags.elf).foldlM update_e_flags (FileFlags.elf x) =
      Except.ok (FileFlags.elf (es.foldl updateEFlagsRaw x)) := by
  induction es with
  | nil => intro x; rfl
  | cons o rest ih =>
    intro x
    simp only [List.map_cons, List.foldlM]
    have h1 : update_e_flags (.elf x) (.elf o) = .ok (.elf (updateEFlagsRaw x o)) := rfl
    rw [h1, exceptBindOk]
    exact ih (updateEFlagsRaw x o)

theorem mergeAllCons (e : Nat) (es : List Nat) :
    mergeAll ((e :: es).map FileFlags.elf) =
      Except.ok (FileFlags.elf ((e :: es).foldl updateEFlagsRaw 0)) := by
  simp only [mergeAll, List.map_cons, List.foldlM]
  have h1 : update_e_flags .fnone (.elf e) = .ok (.elf (updateEFlagsRaw 0 e)) := rfl
  rw [h1, exceptBindOk, mergeAllElf]
  rfl

theorem usageBound (es : List Nat) :
    es.foldl (fun a o => a ||| (o &&& 25)) 0 < 32 :=
  lt_of_le_of_lt ((usageInv es 0 (by decide)) ▸ Nat.and_le_right) (by omega)

theorem floatBound (es : List Nat) :
    es.foldl (fun a o => max a (o &&& 6)) 0 < 7 :=
  lt_of_le_of_lt ((floatInv es 0 (by decide)) ▸ Nat.and_le_right) (by omega)

theorem orMask6 :
    ∀ u, u < 32 → ∀ f, f < 7 → ((u &&& 25) ||| (f &&& 6)) &&& 6 = f &&& 6 := by
  decide

theorem maskedTestBitFalse {f b : Nat} (hf : f &&& 6 = f) (hb : (6 : Nat).testBit b = false) :
    f.testBit b = false := by
  rw [← hf, Nat.testBit_and, hb, Bool.and_false]

theorem highTestBitFalse {x b : Nat} (hx : x < 32) (hb : 5 ≤ b) :
    x.testBit b = false := by
  refine Nat.testBit_lt_two_pow (lt_of_lt_of_le hx ?_)
  calc (32 : Nat) = 2 ^ 5 := rfl
    _ ≤ 2 ^ b := Nat.pow_le_pow_right (by omega) hb

/- ===== generic foldlM lemmas ===== -/

theorem foldlM_inv {σ α : Type} (f : σ → α → Except LinkErr σ) (P : σ → Prop)
    (hf : ∀ s a s2, f s a = .ok s2 → P s → P s2) :
    ∀ (l : List α) (s s2 : σ), l.foldlM f s = .ok s2 → P s → P s2 := by
  intro l
  induction l with
  | nil =>
    intro s s2 h hp
    have : s = s2 := by simpa [List.foldlM, pure, Except.pure] using h
    rwa [← this]
  | cons a rest ih =>
    intro s s2 h hp
    simp only [List.foldlM] at h
    cases hfa : f s a with
    | error e => rw [hfa, exceptBindErr] at h; cases h
    | ok s1 =>
      rw [hfa, exceptBindOk] at h
      exact ih s1 s2 h (hf s a s1 hfa hp)

theorem foldlM_proj_append {σ α β : Type} (f : σ → α → Except LinkErr σ)
    (proj : σ → List β) (g : α → List β)
    (hf : ∀ s a s2, f s a = .ok s2 → proj s2 = proj s ++ g a) :
    ∀ (l : List α) (s s2 : σ), l.foldlM f s = .ok s2 →
      proj s2 = proj s ++ l.flatMap g := by
  intro l
  induction l with
  | nil =>
    intro s s2 h
    have : s = s2 := by simpa [List.foldlM, pure, Except.pure] using h
    simp [← this]
  | cons a rest ih =>
    intro s s2 h
    simp only [List.foldlM] at h
    cases hfa : f s a with
    | error e => rw [hfa, exceptBindErr] at h; cases h
    | ok s1 =>
      rw [hfa, exceptBindOk] at h
      rw [ih s1 s2 h, hf s a s1 hfa, List.flatMap_cons, List.append_assoc]

theorem flatMapPermCongr {α β : Type} (l : List α) (F G : α → List β)
    (h : ∀ a, (F a).Perm (G a)) : (l.flatMap F).Perm (l.flatMap G) := by
  induction l with
  | nil => exact List.Perm.refl _
  | cons a rest ih => exact (h a).append ih

/-- C2: the merged ELF e_flags over any nonempty list of contributing
objects has usage bit 0 (RVC), bit 3 (RVE) and bit 4 (TSO) set iff some
contributing object has that bit set; its float ABI field (bits 1 to 2,
read in place as the mask 6 portion) is the numeric maximum of the
contributing objects float ABI fields; every other bit of the result is
clear, so all other bits of the inputs are ignored; and merging objects
with e_flags 0b00001 and 0b00100 yields 0b00101. -/
theorem C2_eflags_merge (e : Nat) (es : List Nat) :
    ∃ M, mergeAll ((e :: es).map FileFlags.elf) = .ok (.elf M) ∧
      M.testBit 0 = (e :: es).any (fun o => o.testBit 0) ∧
      M.testBit 3 = (e :: es).any (fun o => o.testBit 3) ∧
      M.testBit 4 = (e :: es).any (fun o => o.testBit 4) ∧
      M &&& 6 = (e :: es).foldl (fun a o => max a (o &&& 6)) 0 ∧
      (∀ b, b ≠ 0 → b ≠ 1 → b ≠ 2 → b ≠ 3 → b ≠ 4 → M.testBit b = false) ∧
      mergeAll [FileFlags.elf 1, FileFlags.elf 4] = .ok (.elf 5) := by
  set l := e :: es with hl
  refine ⟨l.foldl updateEFlagsRaw 0, mergeAllCons e es, ?_, ?_, ?_, ?_, ?_, by rfl⟩
  case _ =>
    rw [mergedNormal, Nat.testBit_or,
      maskedTestBitFalse (floatInv l 0 (by decide)) (by decide), Bool.or_false,
      usageTestBit 0 (by decide) l 0]
    simp
  case _ =>
    rw [mergedNormal, Nat.testBit_or,
      maskedTestBitFalse (floatInv l 0 (by decide)) (by decide), Bool.or_false,
      usageTestBit 3 (by decide) l 0]
    simp
  case _ =>
    rw [mergedNormal, Nat.testBit_or,
      maskedTestBitFalse (floatInv l 0 (by decide)) (by decide), Bool.or_false,
      usageTestBit 4 (by decide) l 0]
    simp
  case _ =>
    have h := orMask6 (l.foldl (fun a o => a ||| (o &&& 25)) 0) (usageBound l)
      (l.foldl (fun a o => max a (o &&& 6)) 0) (floatBound l)
    rw [usageInv l 0 (by decide), floatInv l 0 (by decide)] at h
    rw [mergedNormal]
    exact h
  case _ =>
    intro b h0 h1 h2 h3 h4
    have hb : 5 ≤ b := by omega
    rw [mergedNormal, Nat.testBit_or,
      highTestBitFalse (usageBound l) hb,
      highTestBitFalse (lt_of_lt_of_le (floatBound l) (by omega)) hb]
    rfl

/-- Witness for C2 at the concrete contribution list 1, 4. -/
theorem C2_eflags_merge_witness :
    ∃ M, mergeAll ([1, 4].map FileFlags.elf) = .ok (.elf M) ∧ M.testBit 9 = false := by
  obtain ⟨M, h1, _, _, _, _, h6, _⟩ := C2_eflags_merge 1 [4]
  exact ⟨M, h1, h6 9 (by decide) (by decide) (by decide) (by decide) (by decide)⟩

/- ===== gather dedup invariants (claim C3) ===== -/

theorem nodupSnoc {α : Type} {l : List α} {a : α} (h : l.Nodup) (ha : a ∉ l) :
    (l ++ [a]).Nodup := by
  simp [List.nodup_append, h, ha]

theorem gatherStepNodup (pat id : String) (fl : FileFlags) (stdIdx : Nat) :
    ∀ (p : GatherState × Bool) sec p2, gatherStep pat id fl stdIdx p sec = .ok p2 →
      p.1.sections.Nodup → p2.1.sections.Nodup := by
  intro p sec p2 h hp
  simp only [gatherStep] at h
  split at h
  · split at h
    · cases h; exact hp
    · rename_i hmem
      split at h
      · cases h; exact nodupSnoc hp hmem
      · split at h
        · cases h
        · cases h; exact nodupSnoc hp hmem
  · cases h; exact hp

theorem gatherObjNodup (pat : String) (stdIdx : Nat) :
    ∀ st io st2, gatherObj pat stdIdx st io = .ok st2 →
      st.sections.Nodup → st2.sections.Nodup := by
  intro st io st2 h hst
  simp only [gatherObj] at h
  split at h
  · cases h
  · cases hf : io.2.sections.foldlM (gatherStep pat io.1 io.2.fflags stdIdx) (st, false) with
    | error e => rw [hf, exceptBindErr] at h; cases h
    | ok r =>
      rw [hf, exceptBindOk] at h
      have hr := foldlM_inv _ (fun (p : GatherState × Bool) => p.1.sections.Nodup)
        (gatherStepNodup pat io.1 io.2.fflags stdIdx) _ _ _ hf hst
      have : r.1 = st2 := by simpa [pure, Except.pure] using h
      rwa [← this]

theorem gatherNewNodup (config : List (String × List String))
    (manifest : List (String × Obj)) (st : GatherState)
    (h : gatherNew config manifest = .ok st) : st.sections.Nodup := by
  unfold gatherNew at h
  refine foldlM_inv _ (fun (g : GatherState) => g.sections.Nodup) ?_ _ _ _ h (by simp)
  intro s idx s2 hstep hs
  split at hstep
  · cases hstep; exact hs
  · split at hstep
    · cases hstep; exact hs
    · refine foldlM_inv _ (fun (g : GatherState) => g.sections.Nodup) ?_ _ _ _ hstep hs
      intro s3 pat s4 hp hs3
      exact foldlM_inv _ (fun (g : GatherState) => g.sections.Nodup)
        (gatherObjNodup pat idx) _ _ _ hp hs3

/-- C3 counterexample: the claim fails on the code.  In the section copy
pass of copy.rs, the single input section .text of objA matched by the two
patterns of the same text bucket is copied twice (two output sections are
created) and the flag merge fires twice for that one object, because the
pass performs no duplicate test before elf.add_section.  In the gather
pass, the same (identifier, section index) matched from two different
standard section buckets yields two distinct kept entries, because the
IndexSet identity includes the parent bucket index. -/
theorem C3_counterexample :
    (∃ st, sectionsPass cfgDup [("a.o", objA)] = .ok st ∧
      st.outs.length = 2 ∧ st.merges = 2) ∧
    (∃ st, gatherNew cfgCross [("a.o", objA)] = .ok st ∧
      st.sections = [⟨"a.o", 0, 0⟩, ⟨"a.o", 0, 2⟩]) :=
  ⟨⟨_, rfl, rfl, rfl⟩, ⟨_, rfl, rfl⟩⟩

/-- C3 (amended): in the gather pass, two matches of the same
(FileIdentifier, section index, parent bucket) triple collapse to a single
kept entry: the kept section list of any successful gather has no
duplicates, and a match whose triple is already present leaves the state
unchanged, in particular it does not re-fire the ELF flag merge.  (The
collapse does not extend across distinct standard section buckets, and the
section copy pass of the emitter copies once per match, not once per
deduplicated entry, as the counterexample shows.) -/
theorem C3_gather_dedup :
    (∀ config manifest st, gatherNew config manifest = .ok st → st.sections.Nodup) ∧
    (∀ pat id fl stdIdx (p : GatherState × Bool) sec,
      sectionMatches pat sec = true →
      (⟨id, sec.index, stdIdx⟩ : GSection) ∈ p.1.sections →
      gatherStep pat id fl stdIdx p sec = .ok p) := by
  refine ⟨gatherNewNodup, ?_⟩
  intro pat id fl stdIdx p sec hm hmem
  simp [gatherStep, hm, hmem]

/-- Witness for C3 at concrete inputs: the gather of objA under cfgCross
succeeds with a duplicate free kept list, and a duplicate match against a
state already holding the triple is a no-op. -/
theorem C3_gather_dedup_witness :
    (∃ st, gatherNew cfgCross [("a.o", objA)] = .ok st ∧ st.sections.Nodup) ∧
      gatherStep ".t*" "a.o" (.elf 0) 0 (⟨[⟨"a.o", 0, 0⟩], .elf 0, 1⟩, false) secText =
        .ok (⟨[⟨"a.o", 0, 0⟩], .elf 0, 1⟩, false) := by
  constructor
  · exact ⟨_, rfl, C3_gather_dedup.1 cfgCross [("a.o", objA)] _ rfl⟩
  · exact C3_gather_dedup.2 ".t*" "a.o" (.elf 0) 0 (⟨[⟨"a.o", 0, 0⟩], .elf 0, 1⟩, false)
      secText (by decide) (by decide)

/- ===== section copy characterization (claim C8) ===== -/

theorem copyStepOuts (pat id : String) (fl : FileFlags) :
    ∀ (p : CopyState × Bool) sec p2, copyObjStep pat id fl p sec = .ok p2 →
      p2.1.outs = p.1.outs ++ (if sectionMatches pat sec then [mkOutSection sec] else []) := by
  intro p sec p2 h
  simp only [copyObjStep] at h
  split at h
  · rename_i hm
    split at h
    · cases h; simp [copySection, hm]
    · split at h
      · cases h
      · cases h; simp [copySection, hm]
  · rename_i hm
    cases h; simp [hm]

theorem copyObjOuts (pat : String) :
    ∀ st io st2, copyObjSections pat st io = .ok st2 →
      st2.outs = st.outs ++ sectionOutsFor pat io := by
  intro st io st2 h
  simp only [copyObjSections] at h
  split at h
  · cases h
  · cases hf : io.2.sections.foldlM (copyObjStep pat io.1 io.2.fflags) (st, false) with
    | error e => rw [hf, exceptBindErr] at h; cases h
    | ok r =>
      rw [hf, exceptBindOk] at h
      have hr := foldlM_proj_append _ (fun (p : CopyState × Bool) => p.1.outs)
        (fun sec => if sectionMatches pat sec then [mkOutSection sec] else [])
        (copyStepOuts pat io.1 io.2.fflags) _ _ _ hf
      have : r.1 = st2 := by simpa [pure, Except.pure] using h
      rw [← this, sectionOutsFor]
      exact hr

theorem sectionsPassOuts (config : List (String × List String))
    (manifest : List (String × Obj)) (st : CopyState)
    (h : sectionsPass config manifest = .ok st) :
    st.outs = configOuts config manifest := by
  unfold sectionsPass at h
  have hr := foldlM_proj_append _ CopyState.outs
    (fun name =>
      match alookup config name with
      | none => []
      | some pats => pats.flatMap (fun pat => patternOuts pat manifest))
    ?_ SECTIONS _ _ h
  · simpa [configOuts] using hr
  · intro s name s2 hs
    split at hs
    · rename_i ha
      cases hs
      simp [ha]
    · rename_i pats ha
      have hr2 := foldlM_proj_append _ CopyState.outs (fun pat => patternOuts pat manifest)
        (fun s3 pat s4 hp =>
          foldlM_proj_append _ CopyState.outs (sectionOutsFor pat)
            (copyObjOuts pat) manifest _ _ hp)
        pats _ _ hs
      simp [hr2, ha]

theorem configOutsPerm (config : List (String × List String))
    {m1 m2 : List (String × Obj)} (h : m1.Perm m2) :
    (configOuts config m1).Perm (configOuts config m2) := by
  unfold configOuts
  refine flatMapPermCongr _ _ _ ?_
  intro name
  cases ha : alookup config name
  · exact List.Perm.refl _
  · exact flatMapPermCongr _ _ _ (fun pat => h.flatMap_right (sectionOutsFor pat))

/-- C8 counterexample: the claim fails on the code.  The Manifest stores
its objects in a std HashMap (manifest.rs line 19) and every pass iterates
manifest.raw_objects, a HashMap iterator whose order is unspecified and
randomly seeded per process, so a second run may visit the same manifest
in a different order; nothing in the inputs pins it.  Here the same two
object manifest visited in its two possible orders yields two different
output section lists, hence different output ELF bytes. -/
theorem C8_counterexample :
    outsOf (sectionsPass cfgT [("a.o", objA), ("b.o", objB)]) ≠
      outsOf (sectionsPass cfgT [("b.o", objB), ("a.o", objA)]) := by
  decide

/-- C8 (amended): the section copy output is a deterministic function of
the manifest visitation order, and any two successful runs over visitation
orders that are permutations of the same manifest produce output section
lists that are permutations of each other; byte identical output is
guaranteed only when both runs visit the manifest in the same order. -/
theorem C8_order_perm (config : List (String × List String))
    {m1 m2 : List (String × Obj)} (hperm : m1.Perm m2) {st1 st2 : CopyState}
    (h1 : sectionsPass config m1 = .ok st1) (h2 : sectionsPass config m2 = .ok st2) :
    st1.outs.Perm st2.outs := by
  rw [sectionsPassOuts config m1 st1 h1, sectionsPassOuts config m2 st2 h2]
  exact configOutsPerm config hperm

/-- Witness for C8 at the two visitation orders of a concrete manifest. -/
theorem C8_order_perm_witness :
    ∃ s1 s2, sectionsPass cfgT [("a.o", objA), ("b.o", objB)] = .ok s1 ∧
      sectionsPass cfgT [("b.o", objB), ("a.o", objA)] = .ok s2 ∧
      s1.outs.Perm s2.outs := by
  refine ⟨_, _, rfl, rfl,
    C8_order_perm cfgT (List.Perm.swap ("b.o", objB) ("a.o", objA) []) rfl rfl⟩

/- ===== group loop lemmas (claim C4) ===== -/

theorem linkFoldMem (syms : List String) :
    ∀ (p : List String × Nat) (n : String), (n ∈ p.1 ∨ n ∈ syms) →
      n ∈ (syms.foldl (fun p n => if n ∈ p.1 then p else (n :: p.1, p.2 + 1)) p).1 := by
  induction syms with
  | nil =>
    intro p n h
    simpa using h.resolve_right (by simp)
  | cons a rest ih =>
    intro p n h
    simp only [List.foldl_cons]
    apply ih
    by_cases ha : a ∈ p.1
    · simp only [if_pos ha]
      rcases h with h | h
      · exact Or.inl h
      · rcases List.mem_cons.mp h with rfl | h
        · exact Or.inl ha
        · exact Or.inr h
    · simp only [if_neg ha]
      rcases h with h | h
      · exact Or.inl (List.mem_cons_of_mem _ h)
      · rcases List.mem_cons.mp h with rfl | h
        · exact Or.inl (List.mem_cons_self _ _)
        · exact Or.inr h

theorem linkFoldStable (syms : List String) :
    ∀ (p : List String × Nat), (∀ n ∈ syms, n ∈ p.1) →
      syms.foldl (fun p n => if n ∈ p.1 then p else (n :: p.1, p.2 + 1)) p = p := by
  induction syms with
  | nil => intro p _; rfl
  | cons a rest ih =>
    intro p h
    simp only [List.foldl_cons, if_pos (h a (List.mem_cons_self a rest))]
    exact ih p (fun n hn => h n (List.mem_cons_of_mem a hn))

theorem linkFileMem (table syms : List String) (n : String)
    (h : n ∈ table ∨ n ∈ syms) : n ∈ (linkFile table syms).1 :=
  linkFoldMem syms (table, 0) n h

theorem linkFileStable (table syms : List String) (h : ∀ n ∈ syms, n ∈ table) :
    linkFile table syms = (table, 0) :=
  linkFoldStable syms (table, 0) h

theorem passFoldMem (members : List (List String)) :
    ∀ (p : List String × Nat) (n : String),
      (n ∈ p.1 ∨ ∃ m, m ∈ members ∧ n ∈ m) →
      n ∈ (members.foldl (fun p m => let r := linkFile p.1 m; (r.1, p.2 + r.2)) p).1 := by
  induction members with
  | nil =>
    intro p n h
    simpa using h.resolve_right (by simp)
  | cons a rest ih =>
    intro p n h
    simp only [List.foldl_cons]
    apply ih
    rcases h with h | ⟨m, hm, hn⟩
    · exact Or.inl (linkFileMem p.1 a n (Or.inl h))
    · rcases List.mem_cons.mp hm with rfl | hm
      · exact Or.inl (linkFileMem p.1 m n (Or.inr hn))
      · exact Or.inr ⟨m, hm, hn⟩

theorem passFoldStable (members : List (List String)) :
    ∀ (p : List String × Nat), (∀ m ∈ members, ∀ n ∈ m, n ∈ p.1) →
      members.foldl (fun p m => let r := linkFile p.1 m; (r.1, p.2 + r.2)) p = p := by
  induction members with
  | nil => intro p _; rfl
  | cons a rest ih =>
    intro p h
    simp only [List.foldl_cons]
    rw [linkFileStable p.1 a (h a (List.mem_cons_self a rest))]
    simpa using ih p (fun m hm n hn => h m (List.mem_cons_of_mem a hm) n hn)

theorem passOnceMem (table : List String) (members : List (List String)) (n : String)
    (h : n ∈ table ∨ ∃ m, m ∈ members ∧ n ∈ m) : n ∈ (passOnce table members).1 :=
  passFoldMem members (table, 0) n h

theorem passOnceStableAt (t2 : List String) (members : List (List String))
    (h : ∀ m ∈ members, ∀ n ∈ m, n ∈ t2) : passOnce t2 members = (t2, 0) :=
  passFoldStable members (t2, 0) h

/-- C4 counterexample: the claim fails on the code.  A group with a single
member contributing one new import symbol is linked twice: the first pass
adds the symbol, so refs is nonzero and process_group loops, re-scanning
and re-linking every member in a second pass before the loop exits. -/
theorem C4_counterexample : groupLoop 2 [] [["a"]] = some (["a"], 2) := rfl

/-- C4 (amended): process_group is a fixed point loop, not a single pass:
it repeats full passes over the group members until a pass adds no new
unresolved references.  Because the symbol table only grows and one pass
inserts every member symbol, fuel two always suffices: each member is
linked exactly once when the first pass adds no new references and exactly
twice otherwise, and the resulting table is the table after the first
pass. -/
theorem C4_group_fixed_point (table : List String) (members : List (List String)) :
    groupLoop 2 table members =
      some ((passOnce table members).1,
        if (passOnce table members).2 = 0 then 1 else 2) := by
  show groupLoop (Nat.succ (Nat.succ 0)) table members = _
  by_cases h : (passOnce table members).2 = 0
  · simp only [groupLoop, h, if_pos rfl]
    simp [h]
  · have hstable : passOnce (passOnce table members).1 members =
        ((passOnce table members).1, 0) :=
      passOnceStableAt (passOnce table members).1 members
        (fun m hm n hn => passOnceMem table members n (Or.inr ⟨m, hm, hn⟩))
    simp only [groupLoop, hstable]
    simp [h]

/- ===== symbol copy lemmas (claims C1 and C10) ===== -/

theorem wrapSubEq (a b : Nat) (hba : b ≤ a) (ha : a < 2 ^ 64) : wrapSub a b = a - b := by
  unfold wrapSub
  omega

/-- C1: for every input symbol attributed to an input section that was kept
as an output section, the symbol copy pass emits a symbol whose value is
the input symbol address minus the owning input section address (under the
u64 precondition that the difference does not underflow, see C10) and
whose section attribution is the mapped output section; an input symbol
whose owning section was not kept produces no output symbol. -/
theorem C1_symbol_rebase :
    (∀ secMap id obj (s : InSymbol) i sid sec fl,
      s.kind ≠ SymKind.null → s.kind ≠ SymKind.file →
      s.ssec = SymSec.secIdx i →
      alookup secMap (id, i) = some sid →
      obj.sectionByIndex i = some sec →
      symbolFlagsOut id s.flags = .ok fl →
      sec.address ≤ s.address → s.address < 2 ^ 64 →
      processSymbol secMap id obj s = .ok (some
        { name := s.name, value := s.address - sec.address, size := s.size
          kind := s.kind, scope := s.scope, weak := s.weak
          ssection := .sec sid, flags := fl })) ∧
    (∀ secMap id obj (s : InSymbol) i,
      s.ssec = SymSec.secIdx i →
      alookup secMap (id, i) = none →
      processSymbol secMap id obj s = .ok none) := by
  constructor
  · intro secMap id obj s i sid sec fl hk1 hk2 hsec hlk hsbi hfl hle hlt
    have hatt : symbolAttribution secMap id obj s =
        .ok (some (.sec sid, wrapSub s.address sec.address)) := by
      simp [symbolAttribution, hsec, hlk, hsbi]
    cases hs : s.kind
    case null => exact absurd hs hk1
    case file => exact absurd hs hk2
    all_goals
      simp [processSymbol, hs, hatt, hfl, exceptBindOk, wrapSubEq s.address sec.address hle hlt]
  · intro secMap id obj s i hsec hlk
    have hatt : symbolAttribution secMap id obj s = .ok none := by
      simp [symbolAttribution, hsec, hlk]
    cases hs : s.kind <;> simp [processSymbol, hs, hatt, exceptBindOk, pure, Except.pure]

/-- Witness for C1: a symbol at address 5 in a kept section at address 2 is
emitted with value 3 attributed to output section 7; with an empty section
map the same symbol is skipped. -/
theorem C1_symbol_rebase_witness :
    processSymbol [(("w.o", 0), 7)] "w.o" objW symW =
      .ok (some { name := "w", value := 3, size := 1, kind := .text, scope := 0
                  weak := false, ssection := .sec 7, flags := .fnone }) ∧
    processSymbol [] "w.o" objW symW = .ok none := by
  constructor
  · exact C1_symbol_rebase.1 [(("w.o", 0), 7)] "w.o" objW symW 0 7 secW .fnone
      (by decide) (by decide) rfl rfl rfl rfl (by decide) (by decide)
  · exact C1_symbol_rebase.2 [] "w.o" objW symW 0 rfl rfl

/-- C10: the output symbol value is the unguarded u64 subtraction of the
owning section address from the symbol address (copy.rs line 158).  Under
the precondition that the section address does not exceed the symbol
address the release semantics wrapSub and the debug semantics checkedSub
both yield the true difference; when the symbol address is below the
section address the debug semantics panics (none) and the release
semantics wraps modulo 2 to the 64, as the concrete run shows: a symbol at
address 0 in a kept section at address 1 is emitted with value 2 ^ 64 - 1. -/
theorem C10_value_underflow :
    (∀ a b : Nat, b ≤ a → a < 2 ^ 64 → wrapSub a b = a - b ∧ checkedSub a b = some (a - b)) ∧
    (∀ a b : Nat, a < b → checkedSub a b = none) ∧
    (∃ out, processSymbol [(("u.o", 0), 0)] "u.o" objU symLow = .ok (some out) ∧
      out.value = 2 ^ 64 - 1 ∧ symLow.address < secHigh.address) := by
  refine ⟨?_, ?_, ⟨_, rfl, rfl, by decide⟩⟩
  · intro a b hba ha
    exact ⟨wrapSubEq a b hba ha, by simp [checkedSub, hba]⟩
  · intro a b hab
    unfold checkedSub
    rw [if_neg (by omega)]

/-- Witness for C10 at concrete values: 5 minus 3 is well defined both
ways, and 0 minus 1 panics in debug semantics. -/
theorem C10_value_underflow_witness :
    wrapSub 5 3 = 2 ∧ checkedSub 5 3 = some 2 ∧ checkedSub 0 1 = none := by
  obtain ⟨h1, h2⟩ := C10_value_underflow.1 5 3 (by decide) (by decide)
  exact ⟨h1, h2, C10_value_underflow.2.1 0 1 (by decide)⟩

/- ===== relocation copy (claim C5) ===== -/

/-- C5: for a relocation in a kept input section, a Symbol target absent
from the symbol map silently drops the relocation, a Section target absent
from the section map is fatal naming the unmappable section, any other
target kind is fatal, and in the mapped cases the emitted relocation
preserves offset, size, kind, encoding and addend, references the mapped
output symbol (or the canonical section symbol), and is attached to the
output section of the containing input section. -/
theorem C5_relocation_retarget :
    (∀ symMap secMap id outSec off (r : InReloc) i,
      r.target = .symbol i → alookup symMap (id, i) = none →
      processRelocation symMap secMap id outSec off r = .ok none) ∧
    (∀ symMap secMap id outSec off (r : InReloc) i s,
      r.target = .symbol i → alookup symMap (id, i) = some s →
      processRelocation symMap secMap id outSec off r =
        .ok (some ⟨off, r.size, r.kind, r.encoding, .sym s, r.addend, outSec⟩)) ∧
    (∀ symMap secMap id outSec off (r : InReloc) i,
      r.target = .section i → alookup secMap (id, i) = none →
      processRelocation symMap secMap id outSec off r = .error (.cantMapSection id i)) ∧
    (∀ symMap secMap id outSec off (r : InReloc) i osid,
      r.target = .section i → alookup secMap (id, i) = some osid →
      processRelocation symMap secMap id outSec off r =
        .ok (some ⟨off, r.size, r.kind, r.encoding, .sectionSym osid, r.addend, outSec⟩)) ∧
    (∀ symMap secMap id outSec off (r : InReloc),
      r.target = .absolute →
      processRelocation symMap secMap id outSec off r =
        .error (.unsupportedRelocTarget id)) := by
  refine ⟨?_, ?_, ?_, ?_, ?_⟩
  · intro symMap secMap id outSec off r i h1 h2
    simp [processRelocation, h1, h2]
  · intro symMap secMap id outSec off r i s h1 h2
    simp [processRelocation, h1, h2]
  · intro symMap secMap id outSec off r i h1 h2
    simp [processRelocation, h1, h2]
  · intro symMap secMap id outSec off r i osid h1 h2
    simp [processRelocation, h1, h2]
  · intro symMap secMap id outSec off r h1
    simp [processRelocation, h1]

/-- Witness for C5 covering all five cases at concrete inputs. -/
theorem C5_relocation_retarget_witness :
    processRelocation [] [] "x.o" 3 8 ⟨4, 2, 1, -4, .symbol 1⟩ = .ok none ∧
    processRelocation [(("x.o", 1), 9)] [] "x.o" 3 8 ⟨4, 2, 1, -4, .symbol 1⟩ =
      .ok (some ⟨8, 4, 2, 1, .sym 9, -4, 3⟩) ∧
    processRelocation [] [] "x.o" 3 8 ⟨4, 2, 1, -4, .section 1⟩ =
      .error (.cantMapSection "x.o" 1) ∧
    processRelocation [] [(("x.o", 1), 5)] "x.o" 3 8 ⟨4, 2, 1, -4, .section 1⟩ =
      .ok (some ⟨8, 4, 2, 1, .sectionSym 5, -4, 3⟩) ∧
    processRelocation [] [] "x.o" 3 8 ⟨4, 2, 1, -4, .absolute⟩ =
      .error (.unsupportedRelocTarget "x.o") :=
  ⟨C5_relocation_retarget.1 [] [] "x.o" 3 8 _ 1 rfl rfl,
    C5_relocation_retarget.2.1 [(("x.o", 1), 9)] [] "x.o" 3 8 _ 1 9 rfl rfl,
    C5_relocation_retarget.2.2.1 [] [] "x.o" 3 8 _ 1 rfl rfl,
    C5_relocation_retarget.2.2.2.1 [] [(("x.o", 1), 5)] "x.o" 3 8 _ 1 5 rfl rfl,
    C5_relocation_retarget.2.2.2.2 [] [] "x.o" 3 8 _ rfl⟩

/- ===== manifest dispatch (claims C6, C7, C9) ===== -/

theorem addDispatchOther (e : String) (h1 : e ≠ "o") (h2 : e ≠ "rlib") (h3 : e ≠ "rmeta") :
    addDispatch (some e) = .unrecognized := by
  unfold addDispatch
  split <;> simp_all

theorem addDispatchNotPanic (e : String) : addDispatch (some e) ≠ .unwrapPanic := by
  unfold addDispatch
  split <;> simp_all

/-- C6: Manifest::add dispatches on the extension of the pseudo path: a .o
file goes through add_object (validate and insert), .rmeta is skipped
silently, any other extension is the Unrecognized file fatal error, and
.rlib is expanded as an archive: each member is mapped as the (offset,
length) sub range of the backing file, identified by the member name
appended to the archive pseudo path, and redispatched through the same
table, so nested rlibs are recursively expanded, as the concrete nested
run shows. -/
theorem C6_manifest_dispatch :
    (∀ (env : Env) fuel m filename pseudo mp, pathExtension pseudo = some "o" →
      add_file env (fuel + 1) m filename pseudo mp = add_object env m pseudo mp) ∧
    (∀ (env : Env) fuel m filename pseudo mp, pathExtension pseudo = some "rmeta" →
      add_file env (fuel + 1) m filename pseudo mp = .ok m) ∧
    (∀ (env : Env) fuel m filename pseudo mp e, pathExtension pseudo = some e →
      e ≠ "o" → e ≠ "rlib" → e ≠ "rmeta" →
      add_file env (fuel + 1) m filename pseudo mp = .error (.unrecognizedFile pseudo)) ∧
    (∀ (env : Env) fuel m filename pseudo mp members, pathExtension pseudo = some "rlib" →
      env.parseArchive mp = .ok members →
      add_file env (fuel + 1) m filename pseudo mp =
        members.foldlM
          (fun acc mem => add_file env fuel acc filename (pseudo ++ [mem.name])
            ⟨filename, some mem.offset, some mem.length⟩) m) ∧
    (add_file envNested 3 [] ["lib.rlib"] ["lib.rlib"] ⟨["lib.rlib"], none, none⟩ =
      .ok [(["lib.rlib", "inner.rlib", "c.o"], ⟨["lib.rlib"], some 16, some 50⟩)]) := by
  refine ⟨?_, ?_, ?_, ?_, rfl⟩
  · intro env fuel m filename pseudo mp h
    show add_file env (Nat.succ fuel) m filename pseudo mp = _
    simp [add_file, h, addDispatch]
  · intro env fuel m filename pseudo mp h
    show add_file env (Nat.succ fuel) m filename pseudo mp = _
    simp [add_file, h, addDispatch]
  · intro env fuel m filename pseudo mp e h h1 h2 h3
    show add_file env (Nat.succ fuel) m filename pseudo mp = _
    simp [add_file, h, addDispatchOther e h1 h2 h3]
  · intro env fuel m filename pseudo mp members h harc
    show add_file env (Nat.succ fuel) m filename pseudo mp = _
    simp [add_file, h, addDispatch, harc]

/-- Witness for C6 covering the four dispatch arms at concrete inputs. -/
theorem C6_manifest_dispatch_witness :
    add_file envE 1 [] ["a.o"] ["a.o"] ⟨["a.o"], none, none⟩ =
      add_object envE [] ["a.o"] ⟨["a.o"], none, none⟩ ∧
    add_file envE 1 [] ["m.rmeta"] ["m.rmeta"] ⟨["m.rmeta"], none, none⟩ = .ok [] ∧
    add_file envE 1 [] ["x.so"] ["x.so"] ⟨["x.so"], none, none⟩ =
      .error (.unrecognizedFile ["x.so"]) ∧
    add_file envNested 2 [] ["lib.rlib"] ["lib.rlib"] ⟨["lib.rlib"], none, none⟩ =
      [(⟨"inner.rlib", 8, 100⟩ : ArcMember)].foldlM
        (fun acc mem => add_file envNested 1 acc ["lib.rlib"]
          (["lib.rlib"] ++ [mem.name]) ⟨["lib.rlib"], some mem.offset, some mem.length⟩) [] :=
  ⟨C6_manifest_dispatch.1 envE 0 [] ["a.o"] ["a.o"] _ rfl,
    C6_manifest_dispatch.2.1 envE 0 [] ["m.rmeta"] ["m.rmeta"] _ rfl,
    C6_manifest_dispatch.2.2.1 envE 0 [] ["x.so"] ["x.so"] _ "so" rfl
      (by decide) (by decide) (by decide),
    C6_manifest_dispatch.2.2.2.1 envNested 1 [] ["lib.rlib"] ["lib.rlib"] _
      [⟨"inner.rlib", 8, 100⟩] rfl rfl⟩

/-- C7: every object inserted into the manifest parses as an ELF file for
64 bit RISC-V; any other format or architecture is fatal with a diagnostic
carrying the offending format or architecture code, and the obj.rs gate
likewise rejects any machine type other than EM_RISCV naming the machine
code, accepting exactly 64 bit EM_RISCV objects. -/
theorem C7_arch_gate :
    (∀ (env : Env) m pseudo mp m2, add_object env m pseudo mp = .ok m2 →
      ∃ hdr, env.parseObject mp = .ok hdr ∧ hdr.format = .elf ∧ hdr.arch = .riscv64 ∧
        m2 = mInsert m pseudo mp) ∧
    (∀ (env : Env) m pseudo mp hdr, env.parseObject mp = .ok hdr → hdr.format ≠ .elf →
      add_object env m pseudo mp = .error (.unsupportedFormat pseudo hdr.format)) ∧
    (∀ (env : Env) m pseudo mp hdr, env.parseObject mp = .ok hdr → hdr.format = .elf →
      hdr.arch ≠ .riscv64 →
      add_object env m pseudo mp = .error (.nonRiscvArch pseudo hdr.arch)) ∧
    (∀ src (hdr : GoblinHeader), hdr.e_machine ≠ EM_RISCV →
      linkSliceGate src hdr = .error (.nonRiscvMachine src hdr.e_machine)) ∧
    (∀ src (hdr : GoblinHeader), linkSliceGate src hdr = .ok () ↔
      (hdr.e_machine = EM_RISCV ∧ hdr.is_64 = true)) := by
  refine ⟨?_, ?_, ?_, ?_, ?_⟩
  · intro env m pseudo mp m2 h
    unfold add_object at h
    cases hp : env.parseObject mp with
    | error e => rw [hp] at h; cases h
    | ok hdr =>
      rw [hp] at h
      dsimp only at h
      by_cases hfmt : hdr.format = .elf
      · by_cases harch : hdr.arch = .riscv64
        · rw [if_neg (not_not.mpr hfmt), if_neg (not_not.mpr harch)] at h
          cases h
          exact ⟨hdr, rfl, hfmt, harch, rfl⟩
        · rw [if_neg (not_not.mpr hfmt), if_pos harch] at h
          cases h
      · rw [if_pos hfmt] at h
        cases h
  · intro env m pseudo mp hdr hp hfmt
    simp [add_object, hp, hfmt]
  · intro env m pseudo mp hdr hp hfmt harch
    simp [add_object, hp, hfmt, harch]
  · intro src hdr h
    simp [linkSliceGate, h]
  · intro src hdr
    unfold linkSliceGate
    by_cases h1 : hdr.e_machine = EM_RISCV
    · by_cases h2 : hdr.is_64 = true
      · simp [h1, h2]
      · simp [h1, h2]
    · simp [h1]

/-- Witness for C7 at concrete parser environments: an RV64 ELF object is
inserted, a COFF object and a foreign architecture object are fatal with
the offending code in the diagnostic, and the obj.rs gate rejects machine
type 3 and accepts 64 bit machine type 243. -/
theorem C7_arch_gate_witness :
    (∃ hdr, envE.parseObject ⟨["a.o"], none, none⟩ = .ok hdr ∧ hdr.format = .elf ∧
      hdr.arch = .riscv64 ∧
      mInsert [] ["a.o"] ⟨["a.o"], none, none⟩ = mInsert [] ["a.o"] ⟨["a.o"], none, none⟩) ∧
    add_object envBadFmt [] ["a.o"] ⟨["a.o"], none, none⟩ =
      .error (.unsupportedFormat ["a.o"] .coff) ∧
    add_object envBadArch [] ["a.o"] ⟨["a.o"], none, none⟩ =
      .error (.nonRiscvArch ["a.o"] (.otherArch 62)) ∧
    linkSliceGate ["a.o"] ⟨3, true⟩ = .error (.nonRiscvMachine ["a.o"] 3) ∧
    linkSliceGate ["a.o"] ⟨243, true⟩ = .ok () :=
  ⟨C7_arch_gate.1 envE [] ["a.o"] ⟨["a.o"], none, none⟩ _ rfl,
    C7_arch_gate.2.1 envBadFmt [] ["a.o"] ⟨["a.o"], none, none⟩ ⟨.coff, .riscv64⟩
      rfl (by decide),
    C7_arch_gate.2.2.1 envBadArch [] ["a.o"] ⟨["a.o"], none, none⟩ ⟨.elf, .otherArch 62⟩
      rfl rfl (by decide),
    C7_arch_gate.2.2.2.1 ["a.o"] ⟨3, true⟩ (by decide),
    (C7_arch_gate.2.2.2.2 ["a.o"] ⟨243, true⟩).mpr ⟨rfl, rfl⟩⟩

/-- C9: when the pseudo path has no extension the dispatch of add_file hits
Option::unwrap on None and panics, a failure mode distinct from the
documented Unrecognized file fatal error; for every path with an extension
the dispatch is total (one of the four arms is taken, never the unwrap
panic).  The path libfoo has no extension and panics concretely. -/
theorem C9_missing_extension_panic :
    (∀ (env : Env) fuel m filename pseudo mp, pathExtension pseudo = none →
      add_file env (fuel + 1) m filename pseudo mp =
        .error (.panick "called Option unwrap on a None value")) ∧
    (∀ e, addDispatch (some e) ≠ .unwrapPanic) ∧
    pathExtension ["libfoo"] = none ∧
    (∀ pseudo msg, LinkErr.panick msg ≠ LinkErr.unrecognizedFile pseudo) := by
  refine ⟨?_, addDispatchNotPanic, rfl, ?_⟩
  · intro env fuel m filename pseudo mp h
    show add_file env (Nat.succ fuel) m filename pseudo mp = _
    simp [add_file, h, addDispatch]
  · intro pseudo msg
    simp

/-- Witness for C9: linking a file named libfoo panics in the dispatch. -/
theorem C9_missing_extension_panic_witness :
    add_file envE 1 [] ["libfoo"] ["libfoo"] ⟨["libfoo"], none, none⟩ =
      .error (.panick "called Option unwrap on a None value") :=
  C9_missing_extension_panic.1 envE 0 [] ["libfoo"] ["libfoo"] _ rfl

end Itsylinker
